import Mathlib

/-!
Shallow embedding of the number-mnemonics repository
(`mnemonics.py`, `mnemonic_generator.py`): the Major-System cipher table,
the word encoder (`map_to_numbers` over a vowel-stripped skeleton), index
construction (`process_words`), and the phrase search (`generate_mnemonic`
in both the role-agnostic and the role-aware variant).

Strings are modelled over the ASCII alphabet the program actually uses:
`str.isdigit` and the regex `\d` are rendered as `Char.isDigit`
(`'0'..'9'`), which coincides with Python on ASCII input.  `random.choice`
is modelled by an explicit selection function `pick : List String → String`;
theorems quantify over it where the selected element does not matter.
The WordNet part-of-speech classifier of `mnemonic_generator.py` is an
external collaborator and is modelled as a function parameter
`classify : String → Option String`.
-/

namespace Mnemonics

/-- The cipher table of `mnemonics.py` lines 18–29 and
`mnemonic_generator.py` lines 48–59 (identical), in source order:
digit paired with its list of consonant graphemes. -/
def CIPHER : List (Nat × List String) :=
  [ (0, ["z", "s", "c"]),
    (1, ["d", "t"]),
    (2, ["n"]),
    (3, ["m"]),
    (4, ["r"]),
    (5, ["l"]),
    (6, ["j", "sh", "ch", "g"]),
    (7, ["k", "c", "g", "q", "qu"]),
    (8, ["f", "v", "th"]),
    (9, ["b", "p"]) ]

/-- `VOWELS = r"[aeiou]"`. -/
def VOWELS : List Char := ['a', 'e', 'i', 'o', 'u']

/-- `FILLER_WORDS` of `mnemonic_generator.py` line 61. -/
def FILLER_WORDS : List String := ["the", "a", "of", "in", "and"]

/-- `df["word"].str.replace(VOWELS, "", regex=True)`: delete every vowel
character. -/
def stripVowels (w : String) : String :=
  String.mk (w.data.filter (fun c => !VOWELS.contains c))

/-- The two-character clusters recognised by the scan in `map_to_numbers`
(`word[i:i+2] in ["sh", "ch", "th", "qu"]`). -/
def CLUSTERS : List String := ["sh", "ch", "th", "qu"]

/-- The grapheme scan of `map_to_numbers` (lines 53–60 of `mnemonics.py`):
left to right, consuming a listed two-character cluster when the next two
characters form one, otherwise a single character. -/
def graphemes : List Char → List String
  | [] => []
  | [c] => [String.mk [c]]
  | c1 :: c2 :: rest =>
    if CLUSTERS.contains (String.mk [c1, c2]) then
      String.mk [c1, c2] :: graphemes rest
    else
      String.mk [c1] :: graphemes (c2 :: rest)

/-- The `for num, letters in CIPHER.items(): if consonant in letters: …
break` search: the first table entry (in source order) whose letter list
contains the grapheme. -/
def cipherLookup (g : String) : Option Nat :=
  (CIPHER.find? (fun p => p.2.contains g)).map Prod.fst

/-- One loop iteration's contribution to `result`:
`result.append(str(num))` on a hit, `result.append("")` on a miss
(`# Non-cipher consonant`). -/
def graphemeCode (g : String) : String :=
  match cipherLookup g with
  | some n => toString n
  | none => ""

/-- `map_to_numbers` (lines 51–67 of `mnemonics.py`, identically lines
104–120 of `mnemonic_generator.py`): `"".join(result)` over the scan. -/
def map_to_numbers (skeleton : String) : String :=
  String.join ((graphemes skeleton.data).map graphemeCode)

/-- Python `str.isdigit` on ASCII strings: non-empty and all characters
decimal digits. -/
def pyIsdigit (s : String) : Bool :=
  !s.data.isEmpty && s.data.all Char.isDigit

/-- The row filter `df["number_sequence"].str.match(r"^\d+$")` on ASCII
strings: non-empty and all characters decimal digits. -/
def matchDigits (s : String) : Bool :=
  !s.data.isEmpty && s.data.all Char.isDigit

/-- One row of the `process_words` DataFrame of `mnemonics.py`. -/
structure Entry where
  word : String
  no_vowels : String
  number_sequence : String
deriving DecidableEq, Repr

/-- Row construction in `process_words`: vowel stripping then
`map_to_numbers` on the skeleton. -/
def mkEntry (w : String) : Entry :=
  { word := w
    no_vowels := stripVowels w
    number_sequence := map_to_numbers (stripVowels w) }

/-- `process_words` of `mnemonics.py` lines 45–74: build a row per input
word and keep the rows whose `number_sequence` matches `^\d+$`. -/
def process_words (words : List String) : List Entry :=
  (words.map mkEntry).filter (fun e => matchDigits e.number_sequence)

/-- One row of the `process_words` DataFrame of `mnemonic_generator.py`,
which additionally carries the part of speech. -/
structure EntryP where
  word : String
  no_vowels : String
  number_sequence : String
  pos : Option String
deriving DecidableEq, Repr

/-- Row construction in the role-aware `process_words`; `classify` models
the external `get_part_of_speech` collaborator. -/
def mkEntryP (classify : String → Option String) (w : String) : EntryP :=
  { word := w
    no_vowels := stripVowels w
    number_sequence := map_to_numbers (stripVowels w)
    pos := classify w }

/-- `process_words` of `mnemonic_generator.py` lines 87–129: keep the rows
whose `number_sequence` matches `^\d+$` and whose `pos` is not null. -/
def process_words_pos (words : List String)
    (classify : String → Option String) : List EntryP :=
  (words.map (mkEntryP classify)).filter
    (fun e => matchDigits e.number_sequence && e.pos.isSome)

/-- `df[df["number_sequence"] == seq]["word"].tolist()`. -/
def lookupSeq (df : List Entry) (seq : String) : List String :=
  (df.filter (fun e => e.number_sequence == seq)).map (fun e => e.word)

/-- `df[(df["number_sequence"] == seq) & (df["pos"] == pos)]["word"].tolist()`. -/
def lookupSeqPos (df : List EntryP) (seq pos : String) : List String :=
  (df.filter (fun e => e.number_sequence == seq && e.pos == some pos)).map
    (fun e => e.word)

/-- Python `range(a, b)`: the ascending list `[a, a+1, …, b-1]`. -/
def pyRange (a b : Nat) : List Nat := List.range' a (b - a)

/-- `generate_mnemonic` of `mnemonics.py` lines 76–105.  The validity guard
is `number.isdigit()`; the triple loop is
`for words in range(1, min(max_words + 1, n + 1)):
   for i in range(n - words + 1):
     for j in range(i + 1, n - words + 2): …`
with an early `return` at the first success, rendered by `findSome?` over
the Python ranges.  `pick` models `random.choice`. -/
def generate_mnemonic (number : String) (df : List Entry)
    (pick : List String → String) (max_words : Nat := 3) : Option String :=
  if pyIsdigit number then
    let n := number.length
    (pyRange 1 (min (max_words + 1) (n + 1))).findSome? fun words =>
      (pyRange 0 (n - words + 1)).findSome? fun i =>
        (pyRange (i + 1) (n - words + 2)).findSome? fun j =>
          if words == 1 then
            let matchesL := lookupSeq df number
            if matchesL.isEmpty then none else some (pick matchesL)
          else if words == 2 then
            let seq1 := number.take i
            let seq2 := number.drop i
            let matches1 := lookupSeq df seq1
            let matches2 := lookupSeq df seq2
            if !matches1.isEmpty && !matches2.isEmpty then
              some (pick matches1 ++ " " ++ pick matches2)
            else none
          else if words == 3 then
            let seq1 := number.take i
            let seq2 := (number.drop i).take (j - i)
            let seq3 := number.drop j
            let matches1 := lookupSeq df seq1
            let matches2 := lookupSeq df seq2
            let matches3 := lookupSeq df seq3
            if !matches1.isEmpty && !matches2.isEmpty && !matches3.isEmpty then
              some (pick matches1 ++ " " ++ pick matches2 ++ " " ++
                pick matches3)
            else none
          else none
  else none

/-- `generate_mnemonic` of `mnemonic_generator.py` lines 131–178 (the
role-aware variant): word counts ascending; 1 word queries the noun rows
for the whole number; 2 words loops `for i in range(1, n)` over
adjective/noun splits; 3 words loops `for i in range(1, n - 1): for j in
range(i + 1, n)` over adjective/noun/verb splits; an `f"the …"` prefix is
added exactly when `use_fillers`. -/
def generate_mnemonic_pos (number : String) (df : List EntryP)
    (pick : List String → String) (max_words : Nat := 3)
    (use_fillers : Bool := true) : Option String :=
  if pyIsdigit number then
    let n := number.length
    (pyRange 1 (min (max_words + 1) (n + 1))).findSome? fun words =>
      if words == 1 then
        let matchesL := lookupSeqPos df number "noun"
        if matchesL.isEmpty then none
        else
          let word := pick matchesL
          some (if use_fillers then "the " ++ word else word)
      else if words == 2 then
        (pyRange 1 n).findSome? fun i =>
          let seq1 := number.take i
          let seq2 := number.drop i
          let matches1 := lookupSeqPos df seq1 "adj"
          let matches2 := lookupSeqPos df seq2 "noun"
          if !matches1.isEmpty && !matches2.isEmpty then
            let adj := pick matches1
            let noun := pick matches2
            some (if use_fillers then "the " ++ adj ++ " " ++ noun
              else adj ++ " " ++ noun)
          else none
      else if words == 3 then
        (pyRange 1 (n - 1)).findSome? fun i =>
          (pyRange (i + 1) n).findSome? fun j =>
            let seq1 := number.take i
            let seq2 := (number.drop i).take (j - i)
            let seq3 := number.drop j
            let matches1 := lookupSeqPos df seq1 "adj"
            let matches2 := lookupSeqPos df seq2 "noun"
            let matches3 := lookupSeqPos df seq3 "verb"
            if !matches1.isEmpty && !matches2.isEmpty && !matches3.isEmpty then
              let adj := pick matches1
              let noun := pick matches2
              let verb := pick matches3
              some (if use_fillers then
                  "the " ++ adj ++ " " ++ noun ++ " " ++ verb
                else adj ++ " " ++ noun ++ " " ++ verb)
            else none
      else none
  else none

/-! ### Basic facts about the encoder -/

/-- The characters of a joined string are the concatenation of the pieces'
characters. -/
theorem data_join (l : List String) :
    (String.join l).data = (l.map String.data).flatten := by
  have key : ∀ (l : List String) (s : String),
      (l.foldl (fun r t => r ++ t) s).data =
        s.data ++ (l.map String.data).flatten := by
    intro l
    induction l with
    | nil => intro s; simp
    | cons a t ih => intro s; simp [ih, String.data_append]
  have h := key l ""
  simpa [String.join] using h

/-- Every digit the cipher lookup can return comes from the table, hence is
below 10. -/
theorem cipherLookup_lt_ten (g : String) (n : Nat)
    (h : cipherLookup g = some n) : n < 10 := by
  unfold cipherLookup at h
  cases hf : List.find? (fun p => p.2.contains g) CIPHER with
  | none => rw [hf] at h; simp at h
  | some p =>
    rw [hf] at h
    have hm : p ∈ CIPHER := List.mem_of_find?_eq_some hf
    have hp : p.1 = n := Option.some.inj h
    fin_cases hm <;> omega

/-- Rendering a digit below ten yields one decimal-digit character. -/
theorem toString_digit : ∀ n, n < 10 →
    (toString n).data.length = 1 ∧ (toString n).data.all Char.isDigit = true := by
  decide

/-- Shape of one appended cipher code: one digit character on a hit, the
empty string on a miss. -/
theorem graphemeCode_spec (g : String) :
    ((graphemeCode g).data.length = if (cipherLookup g).isSome then 1 else 0) ∧
      ∀ c ∈ (graphemeCode g).data, c.isDigit = true := by
  unfold graphemeCode
  cases h : cipherLookup g with
  | none => simp
  | some n =>
    have hn : n < 10 := cipherLookup_lt_ten g n h
    have hts := toString_digit n hn
    refine ⟨by simp [hts.1], ?_⟩
    intro c hc
    exact List.all_eq_true.mp hts.2 c hc

/-- The encoder output, character by character: the concatenation of the
per-grapheme codes. -/
theorem map_to_numbers_data (s : String) :
    (map_to_numbers s).data =
      ((graphemes s.data).map (fun g => (graphemeCode g).data)).flatten := by
  unfold map_to_numbers
  rw [data_join, List.map_map]
  rfl

/-- Every character the encoder emits is a decimal digit. -/
theorem map_to_numbers_all_digits (s : String) :
    (map_to_numbers s).data.all Char.isDigit = true := by
  rw [List.all_eq_true]
  intro c hc
  rw [map_to_numbers_data, List.mem_flatten] at hc
  obtain ⟨l, hl, hcl⟩ := hc
  rw [List.mem_map] at hl
  obtain ⟨g, _, rfl⟩ := hl
  exact (graphemeCode_spec g).2 c hcl

/-- The encoder output length is the number of graphemes the cipher table
recognises (unrecognised graphemes contribute nothing). -/
theorem map_to_numbers_length (s : String) :
    (map_to_numbers s).length =
      ((graphemes s.data).filter (fun g => (cipherLookup g).isSome)).length := by
  show (map_to_numbers s).data.length = _
  rw [map_to_numbers_data, List.length_flatten, ← List.countP_eq_length_filter]
  induction graphemes s.data with
  | nil => simp
  | cons g gs ih =>
    rw [List.map_cons, List.map_cons, List.sum_cons, ih, List.countP_cons,
      (graphemeCode_spec g).1]
    cases (cipherLookup g).isSome <;> simp [Nat.add_comm]

/-- The row filter of `process_words` accepts an encoded skeleton exactly
when some grapheme of the skeleton is in the cipher table. -/
theorem matchDigits_map_to_numbers (s : String) :
    matchDigits (map_to_numbers s) =
      (graphemes s.data).any (fun g => (cipherLookup g).isSome) := by
  unfold matchDigits
  rw [map_to_numbers_all_digits, Bool.and_true]
  have hlen := map_to_numbers_length s
  cases hany : (graphemes s.data).any (fun g => (cipherLookup g).isSome) with
  | true =>
    obtain ⟨g, hg, hsome⟩ := List.any_eq_true.mp hany
    have : 0 < ((graphemes s.data).filter
        (fun g => (cipherLookup g).isSome)).length := by
      rw [← List.countP_eq_length_filter]
      exact List.countP_pos_iff.mpr ⟨g, hg, hsome⟩
    have hne : (map_to_numbers s).data ≠ [] := by
      intro hnil
      rw [show (map_to_numbers s).length = (map_to_numbers s).data.length
        from rfl, hnil] at hlen
      simp at hlen
      omega
    simp [List.isEmpty_iff, hne]
  | false =>
    have hz : ((graphemes s.data).filter
        (fun g => (cipherLookup g).isSome)).length = 0 := by
      rw [← List.countP_eq_length_filter, List.countP_eq_zero]
      intro g hg
      exact List.any_eq_false.mp hany g hg
    have hnil : (map_to_numbers s).data = [] := by
      have : (map_to_numbers s).data.length = 0 := by
        rw [show (map_to_numbers s).data.length = (map_to_numbers s).length
          from rfl, hlen, hz]
      exact List.eq_nil_of_length_eq_zero this
    simp [hnil]

/-! ### Claims -/

/-- Claim C1, counterexample: the grapheme `"w"` is not in the cipher
table, yet `process_words` keeps the word `"war"` (skeleton `"wr"`) with
the partial code `"4"` covering only the recognised grapheme `"r"`, and a
lookup for `"4"` returns it. -/
theorem C1_counterexample :
    cipherLookup "w" = none ∧
      "w" ∈ graphemes (stripVowels "war").data ∧
      process_words ["war"] = [⟨"war", "wr", "4"⟩] ∧
      lookupSeq (process_words ["war"]) "4" = ["war"] := by
  decide

/-- Claim C1, amended: a word is kept in the index exactly when at least
one grapheme of its skeleton is in the cipher table; a word with some
unrecognised graphemes gets a partial code over the recognised ones and
stays in the index. -/
theorem C1_partial_encoding_kept :
    ∀ (ws : List String) (e : Entry),
      e ∈ process_words ws ↔
        e ∈ ws.map mkEntry ∧
          (graphemes e.no_vowels.data).any
            (fun g => (cipherLookup g).isSome) = true := by
  intro ws e
  unfold process_words
  rw [List.mem_filter]
  refine and_congr_right fun hmem => ?_
  obtain ⟨w, _, rfl⟩ := List.mem_map.mp hmem
  show matchDigits (map_to_numbers (stripVowels w)) = true ↔ _
  rw [matchDigits_map_to_numbers]
  rfl

/-- Claim C2: `generate_mnemonic` of `mnemonics.py` does not enumerate all
three-piece splits.  For `"123"` with an index matching `"1"`, `"2"`,
`"3"`, its loops (`i ∈ [0, n-3]`, `j ∈ [i+1, n-2]`) never try the only
valid pair `(1, 2)`, so it finds nothing, while the role-aware variant of
`mnemonic_generator.py` (the canonical nested ascending enumeration)
finds the phrase. -/
theorem C2_three_word_split_skipped :
    ∀ pick : List String → String,
      generate_mnemonic "123" (process_words ["tie", "no", "ma"]) pick 3 =
        none ∧
      lookupSeq (process_words ["tie", "no", "ma"]) "1" = ["tie"] ∧
      lookupSeq (process_words ["tie", "no", "ma"]) "2" = ["no"] ∧
      lookupSeq (process_words ["tie", "no", "ma"]) "3" = ["ma"] ∧
      generate_mnemonic_pos "123"
        (process_words_pos ["tie", "no", "ma"]
          (fun w => if w = "tie" then some "adj"
            else if w = "no" then some "noun" else some "verb"))
        pick 3 true =
        some ("the " ++ pick ["tie"] ++ " " ++ pick ["no"] ++ " " ++
          pick ["ma"]) :=
  fun _ => ⟨rfl, rfl, rfl, rfl, rfl⟩

/-- Claim C3: `generate_mnemonic` of `mnemonics.py` does not try the
two-piece split with a single-digit second piece.  For `"21"` with an
index matching `"2"` and `"1"`, its loop (`i ∈ [0, n-2]`) never tries
`i = 1`, so it finds nothing, while the role-aware variant (`i ∈ [1, n-1]`
ascending, as the spec fixes) finds the phrase. -/
theorem C3_two_word_split_skipped :
    ∀ pick : List String → String,
      generate_mnemonic "21" (process_words ["no", "tie"]) pick 3 = none ∧
      lookupSeq (process_words ["no", "tie"]) "2" = ["no"] ∧
      lookupSeq (process_words ["no", "tie"]) "1" = ["tie"] ∧
      generate_mnemonic_pos "21"
        (process_words_pos ["no", "tie"]
          (fun w => if w = "no" then some "adj" else some "noun"))
        pick 3 true =
        some ("the " ++ pick ["no"] ++ " " ++ pick ["tie"]) :=
  fun _ => ⟨rfl, rfl, rfl, rfl⟩

/-- Claim C4, counterexample: the grapheme lists of distinct digits are
not pairwise disjoint (`"c"` is listed under 0 and 7, `"g"` under 6
and 7). -/
theorem C4_counterexample :
    ¬ List.Pairwise (fun p q : Nat × List String => ∀ g ∈ p.2, g ∉ q.2)
      CIPHER := by
  decide

/-- Claim C4, amended: the only graphemes shared between two entries of
the cipher table are `"c"` (digits 0 and 7) and `"g"` (digits 6 and 7);
every other grapheme belongs to a single digit. -/
theorem C4_overlap_only_c_and_g :
    List.Pairwise
      (fun p q : Nat × List String =>
        ∀ g ∈ p.2, g ∈ q.2 →
          (g = "c" ∧ p.1 = 0 ∧ q.1 = 7) ∨ (g = "g" ∧ p.1 = 6 ∧ q.1 = 7))
      CIPHER := by
  decide

/-- Claim C5, counterexample: the kept word `"down"` (skeleton `"dwn"`,
three consumed graphemes) has digit sequence `"12"` of length 2, because
the unrecognised grapheme `"w"` contributes nothing. -/
theorem C5_counterexample :
    process_words ["down"] = [⟨"down", "dwn", "12"⟩] ∧
      (graphemes (stripVowels "down").data).length = 3 ∧
      ("12" : String).length ≠ 3 := by
  decide

/-- Claim C5, amended: for every word kept in the index, the digit
sequence consists solely of decimal digits and its length equals the
number of graphemes of the skeleton that the cipher table recognises
(which can be fewer than the graphemes consumed). -/
theorem C5_digits_count_recognised :
    ∀ (ws : List String) (e : Entry), e ∈ process_words ws →
      e.number_sequence.data.all Char.isDigit = true ∧
        e.number_sequence.length =
          ((graphemes e.no_vowels.data).filter
            (fun g => (cipherLookup g).isSome)).length := by
  intro ws e he
  have hmem : e ∈ ws.map mkEntry := (List.mem_filter.mp he).1
  obtain ⟨w, _, rfl⟩ := List.mem_map.mp hmem
  exact ⟨map_to_numbers_all_digits (stripVowels w),
    map_to_numbers_length (stripVowels w)⟩

/-- Witness for C5: the amended claim evaluated on the index built from
`["war"]`. -/
theorem C5_digits_count_recognised_witness :
    ("4" : String).data.all Char.isDigit = true ∧
      ("4" : String).length =
        ((graphemes ("wr" : String).data).filter
          (fun g => (cipherLookup g).isSome)).length :=
  C5_digits_count_recognised ["war"] ⟨"war", "wr", "4"⟩ (by decide)

/-- Claim C7: on an empty or non-digit `number`, both search variants
return `None` (no phrase, no exception) for every index. -/
theorem C7_invalid_input_returns_none :
    ∀ (number : String) (df : List Entry) (dfp : List EntryP)
      (pick : List String → String) (mw : Nat) (uf : Bool),
      (number = "" ∨ number.data.all Char.isDigit = false) →
        generate_mnemonic number df pick mw = none ∧
          generate_mnemonic_pos number dfp pick mw uf = none := by
  intro number df dfp pick mw uf h
  have hdig : pyIsdigit number = false := by
    unfold pyIsdigit
    rcases h with h | h
    · subst h; decide
    · simp [h]
  exact ⟨by simp [generate_mnemonic, hdig],
    by simp [generate_mnemonic_pos, hdig]⟩

/-- Witness for C7: the invalid input `"12a3"` of the repository's own
test suite. -/
theorem C7_invalid_input_returns_none_witness :
    ("12a3" = "" ∨ ("12a3" : String).data.all Char.isDigit = false) ∧
      generate_mnemonic "12a3" [] (fun l => l.headD "") 3 = none ∧
        generate_mnemonic_pos "12a3" [] (fun l => l.headD "") 3 true = none :=
  ⟨Or.inr (by decide),
    C7_invalid_input_returns_none "12a3" [] [] (fun l => l.headD "") 3 true
      (Or.inr (by decide))⟩

/-- Claim C9: every entry kept by `process_words` has a non-empty,
digits-only sequence, and a lookup with the empty digit string over the
built index returns nothing. -/
theorem C9_index_entries_nonempty_digits :
    ∀ (ws : List String),
      (∀ e ∈ process_words ws,
        e.number_sequence ≠ "" ∧
          e.number_sequence.data.all Char.isDigit = true) ∧
        lookupSeq (process_words ws) "" = [] := by
  intro ws
  have hkey : ∀ e ∈ process_words ws, matchDigits e.number_sequence = true :=
    fun e he => (List.mem_filter.mp he).2
  constructor
  · intro e he
    have h := hkey e he
    unfold matchDigits at h
    rw [Bool.and_eq_true] at h
    refine ⟨fun hnil => ?_, h.2⟩
    rw [hnil] at h
    simp at h
  · have hfil : (process_words ws).filter
        (fun e => e.number_sequence == "") = [] := by
      rw [List.filter_eq_nil_iff]
      intro e he heq
      have h := hkey e he
      have hseq : e.number_sequence = "" := by simpa using heq
      rw [hseq] at h
      simp [matchDigits] at h
    simp [lookupSeq, hfil]

/-- Witness for C9: the non-empty digits property at the entry for
`"ma"`, and the empty-lookup property, on the index built from `["ma"]`. -/
theorem C9_index_entries_nonempty_digits_witness :
    ("3" ≠ "" ∧ ("3" : String).data.all Char.isDigit = true) ∧
      lookupSeq (process_words ["ma"]) "" = [] :=
  ⟨(C9_index_entries_nonempty_digits ["ma"]).1 ⟨"ma", "m", "3"⟩ (by decide),
    (C9_index_entries_nonempty_digits ["ma"]).2⟩

/-- Claim C8: ambiguous graphemes resolve to the first table entry in
iteration order — `"c"` encodes 0 (never 7), `"g"` encodes 6 (never 7) —
and the digit 7 can only come from `"k"`, `"q"` or `"qu"`. -/
theorem C8_first_entry_wins :
    cipherLookup "c" = some 0 ∧ graphemeCode "c" = "0" ∧
      cipherLookup "g" = some 6 ∧ graphemeCode "g" = "6" ∧
      ∀ g : String, cipherLookup g = some 7 →
        g = "k" ∨ g = "q" ∨ g = "qu" := by
  refine ⟨by decide, by decide, by decide, by decide, ?_⟩
  intro g h
  by_cases hc : g = "c"
  · subst hc; exact absurd h (by decide)
  by_cases hgg : g = "g"
  · subst hgg; exact absurd h (by decide)
  unfold cipherLookup at h
  cases hf : List.find? (fun p => p.2.contains g) CIPHER with
  | none => rw [hf] at h; simp at h
  | some p =>
    rw [hf] at h
    have hp1 : p.1 = 7 := Option.some.inj h
    have hm : p ∈ CIPHER := List.mem_of_find?_eq_some hf
    have hpred := List.find?_some hf
    fin_cases hm <;> simp_all

/-- Witness for C8: instantiated at the grapheme `"k"`, which does encode
digit 7. -/
theorem C8_first_entry_wins_witness :
    cipherLookup "k" = some 7 ∧
      ("k" = "k" ∨ ("k" : String) = "q" ∨ ("k" : String) = "qu") :=
  ⟨by decide, C8_first_entry_wins.2.2.2.2 "k" (by decide)⟩

/-- A non-empty Python range starts at its lower bound. -/
theorem pyRange_cons (a b : Nat) (h : a < b) :
    pyRange a b = a :: pyRange (a + 1) b := by
  unfold pyRange
  have hb : b - a = (b - (a + 1)) + 1 := by omega
  rw [hb, List.range'_succ]

/-- An early `return` in a loop: if the body succeeds at the first
iteration, the whole loop returns that value. -/
theorem findSome?_eq_of_head {α β : Type} (a : α) (l : List α)
    (f : α → Option β) (v : β) (h : f a = some v) :
    (a :: l).findSome? f = some v := by
  rw [List.findSome?_cons, h]

/-- An early `return` over a Python range: if the body succeeds at the
lower bound of a non-empty range, the whole loop returns that value. -/
theorem findSome?_pyRange_head {β : Type} (a b : Nat) (f : Nat → Option β)
    (v : β) (hab : a < b) (h : f a = some v) :
    (pyRange a b).findSome? f = some v := by
  rw [pyRange_cons a b hab]
  exact findSome?_eq_of_head a _ f v h

/-- Claim C6: word counts are tried in ascending order, so whenever a
one-word match exists both search variants return the one-word phrase
(and in particular never a two- or three-word phrase). -/
theorem C6_fewest_words_first :
    ∀ (number : String) (df : List Entry) (dfp : List EntryP)
      (pick : List String → String) (mw : Nat) (uf : Bool),
      pyIsdigit number = true → 1 ≤ mw →
      lookupSeq df number ≠ [] →
      lookupSeqPos dfp number "noun" ≠ [] →
        generate_mnemonic number df pick mw =
          some (pick (lookupSeq df number)) ∧
        generate_mnemonic_pos number dfp pick mw uf =
          some (if uf then "the " ++ pick (lookupSeqPos dfp number "noun")
            else pick (lookupSeqPos dfp number "noun")) := by
  intro number df dfp pick mw uf hdig hmw h1 h2
  have hn : 1 ≤ number.length := by
    unfold pyIsdigit at hdig
    rw [Bool.and_eq_true] at hdig
    have hne : number.data ≠ [] := by
      intro hnil
      rw [hnil] at hdig
      simp at hdig
    have : 0 < number.data.length := List.length_pos.mpr hne
    exact this
  have hE1 : (lookupSeq df number).isEmpty = false := by
    apply Bool.eq_false_iff.mpr
    intro ht
    exact h1 (List.isEmpty_iff.mp ht)
  have hE2 : (lookupSeqPos dfp number "noun").isEmpty = false := by
    apply Bool.eq_false_iff.mpr
    intro ht
    exact h2 (List.isEmpty_iff.mp ht)
  constructor
  · rw [generate_mnemonic, if_pos hdig]
    apply findSome?_pyRange_head _ _ _ _ (by omega)
    apply findSome?_pyRange_head _ _ _ _ (by omega)
    apply findSome?_pyRange_head _ _ _ _ (by omega)
    simp [hE1]
  · rw [generate_mnemonic_pos, if_pos hdig]
    apply findSome?_pyRange_head _ _ _ _ (by omega)
    simp [hE2]

/-- Witness for C6: a one-digit number whose one-word match exists in
both kinds of index. -/
theorem C6_fewest_words_first_witness :
    (pyIsdigit "1" = true ∧ 1 ≤ 3 ∧
      lookupSeq [⟨"tie", "t", "1"⟩] "1" ≠ [] ∧
      lookupSeqPos [⟨"tie", "t", "1", some "noun"⟩] "1" "noun" ≠ []) ∧
    generate_mnemonic "1" [⟨"tie", "t", "1"⟩] (fun l => l.headD "") 3 =
      some "tie" ∧
    generate_mnemonic_pos "1" [⟨"tie", "t", "1", some "noun"⟩]
      (fun l => l.headD "") 3 true = some "the tie" :=
  ⟨⟨by decide, by decide, by decide, by decide⟩,
    C6_fewest_words_first "1" [⟨"tie", "t", "1"⟩]
      [⟨"tie", "t", "1", some "noun"⟩] (fun l => l.headD "") 3 true
      (by decide) (by decide) (by decide) (by decide)⟩

/-- Mapping a function over the result of an early-returning loop equals
running the loop with the function mapped over each body result. -/
theorem map_findSome? {α β γ : Type} (g : β → γ) (f : α → Option β)
    (l : List α) :
    (l.findSome? f).map g = l.findSome? (fun a => (f a).map g) := by
  induction l with
  | nil => rfl
  | cons a t ih =>
    rw [List.findSome?_cons, List.findSome?_cons]
    cases f a <;> simp [ih]

/-- Two loops over the same list with pointwise equal bodies return the
same result. -/
theorem findSome?_congr_fun {α β : Type} (l : List α) (f g : α → Option β)
    (h : ∀ a, f a = g a) : l.findSome? f = l.findSome? g := by
  rw [funext h]

/-- Claim C10: the filler is exactly the literal prefix `"the "`; with
`use_fillers` off the same phrase is returned without the prefix, so the
filler never changes which partition or words match; the word `"the"` is
the head of `FILLER_WORDS` and no other member is used. -/
theorem C10_filler_is_the_prefix :
    ∀ (number : String) (dfp : List EntryP)
      (pick : List String → String) (mw : Nat),
      generate_mnemonic_pos number dfp pick mw true =
        (generate_mnemonic_pos number dfp pick mw false).map
          (fun s => "the " ++ s) ∧
      FILLER_WORDS.head? = some "the" := by
  intro number dfp pick mw
  refine ⟨?_, by decide⟩
  rw [generate_mnemonic_pos, generate_mnemonic_pos]
  cases hdig : pyIsdigit number with
  | false => rw [if_neg (by simp [hdig]), if_neg (by simp [hdig])]; rfl
  | true =>
    rw [if_pos rfl, if_pos rfl]
    show List.findSome? _ (pyRange 1 (min (mw + 1) (number.length + 1))) =
      (List.findSome? _
        (pyRange 1 (min (mw + 1) (number.length + 1)))).map _
    rw [map_findSome?]
    apply findSome?_congr_fun
    intro words
    by_cases h1 : words == 1
    · cases hE : (lookupSeqPos dfp number "noun").isEmpty <;> simp [h1, hE]
    · by_cases h2 : words == 2
      · simp only [h1, h2, Bool.false_eq_true, if_false, if_true,
          Bool.true_eq_false]
        rw [map_findSome?]
        apply findSome?_congr_fun
        intro i
        cases hC : (!(lookupSeqPos dfp (number.take i) "adj").isEmpty &&
            !(lookupSeqPos dfp (number.drop i) "noun").isEmpty) <;>
          simp [hC, String.append_assoc]
      · by_cases h3 : words == 3
        · simp only [h1, h2, h3, Bool.false_eq_true, if_false, if_true,
            Bool.true_eq_false]
          rw [map_findSome?]
          apply findSome?_congr_fun
          intro i
          rw [map_findSome?]
          apply findSome?_congr_fun
          intro j
          cases hC : (!(lookupSeqPos dfp (number.take i) "adj").isEmpty &&
              !(lookupSeqPos dfp ((number.drop i).take (j - i))
                "noun").isEmpty &&
              !(lookupSeqPos dfp (number.drop j) "verb").isEmpty) <;>
            simp [hC, String.append_assoc]
        · simp [h1, h2, h3]

end Mnemonics
